import Mathlib

/-!
Shallow embedding of the recurring-reminder scheduler of
`src/frontend/services/NotificationService.tsx`, together with proofs of
the properties stated for it (weekday conversion, Handle Index coverage
and emptiness invariants, idempotence of cancellation, frame properties
of the persisted index, and the behaviour on runtime/persistence
failures).

Modelling conventions:
 - the notification runtime's scheduled-trigger set is a list of
   `Trigger` values keyed by the string identifier passed to
   `scheduleNotificationAsync`; scheduling with an identifier that is
   already present replaces the old trigger;
 - the persisted Handle Index (the JSON object stored under the key
   `@reminder_notification_ids`) is an association list from reminderId
   to the list of notification identifiers;
 - fallible host calls are driven by an explicit failure environment
   `Env`: a call whose flag is set throws at that point, and the model
   follows the source's try/catch structure exactly (which errors are
   swallowed, which are rethrown, and where a loop is abandoned);
 - presentation content (title, body, icon choice) has no scheduling
   semantics and no claim concerns it, so triggers carry only their
   identifier, weekday, hour and minute.
-/

/-- One scheduled repeating trigger in the notification runtime, as
created by `Notifications.scheduleNotificationAsync`: its string
identifier, the runtime weekday (1=Sunday … 7=Saturday), hour and
minute. -/
structure Trigger where
  key : String
  weekday : Nat
  hour : Nat
  minute : Nat
deriving DecidableEq, Repr

/-- Failure environment for the host calls the source wraps in
try/catch: `schedFail k` means `scheduleNotificationAsync` with
identifier `k` throws; `cancelFail k` means
`cancelScheduledNotificationAsync k` throws; `saveFail` means the
`AsyncStorage.setItem` inside `saveNotificationIds` throws (and is
caught there). Storage reads and the write inside
`removeNotificationIds` are modelled as succeeding; no claim concerns
their failure. -/
structure Env where
  schedFail : String → Bool
  cancelFail : String → Bool
  saveFail : Bool

/-- State of the subsystem: the runtime's live triggers plus the parsed
contents of the stored Handle Index object. -/
structure NotifState where
  live : List Trigger
  index : List (String × List String)
deriving DecidableEq, Repr

/-- Composite key built at line 98 of the source:
`reminder_${reminderId}_day${day}`. -/
def compositeKey (reminderId : String) (day : Nat) : String :=
  "reminder_" ++ reminderId ++ "_day" ++ toString day

/-- Weekday conversion at line 112 of the source:
`day === 6 ? 1 : day + 2` — caller convention 0=Monday … 6=Sunday to
runtime convention 1=Sunday … 7=Saturday. -/
def expoWeekday (day : Nat) : Nat :=
  if day = 6 then 1 else day + 2

/-- Model of `getNotificationIds` (lines 209-218): parse the stored
object and return `allIds[reminderId] || []`; a missing entry or a
missing stored value yields the empty list. -/
def getNotificationIds (idx : List (String × List String)) (reminderId : String) :
    List String :=
  match idx.find? (fun p => p.1 = reminderId) with
  | some p => p.2
  | none => []

/-- Model of the JavaScript object assignment
`allIds[reminderId] = notificationIds`: replace the entry if the key is
present, append it otherwise. -/
def setEntry : List (String × List String) → String → List String →
    List (String × List String)
  | [], reminderId, ids => [(reminderId, ids)]
  | p :: rest, reminderId, ids =>
    if p.1 = reminderId then (reminderId, ids) :: rest
    else p :: setEntry rest reminderId ids

/-- Model of `saveNotificationIds` (lines 198-207): write the updated
object back; a `setItem` failure is caught inside this helper and
swallowed, leaving the stored index unchanged. -/
def saveNotificationIds (env : Env) (idx : List (String × List String))
    (reminderId : String) (ids : List String) : List (String × List String) :=
  if env.saveFail then idx else setEntry idx reminderId ids

/-- Model of `removeNotificationIds` (lines 220-226):
`delete allIds[reminderId]` and write the object back. -/
def removeNotificationIds (idx : List (String × List String)) (reminderId : String) :
    List (String × List String) :=
  idx.filter (fun p => p.1 ≠ reminderId)

/-- The cancellation loop of `cancelReminderNotifications` (lines
144-146): cancel each stored identifier in order; a throwing cancel
aborts the loop (the surrounding try/catch catches it after the already
performed cancellations took effect). Returns the remaining live
triggers and whether the loop ran to completion. -/
def cancelList (env : Env) : List Trigger → List String → List Trigger × Bool
  | live, [] => (live, true)
  | live, k :: rest =>
    if env.cancelFail k then (live, false)
    else cancelList env (live.filter (fun t => t.key ≠ k)) rest

/-- Model of `cancelReminderNotifications` (lines 136-155): read the
stored identifiers, cancel each, then remove the index entry; any error
is caught and swallowed, so a failed cancel leaves the loop abandoned
and the entry still recorded. The function itself never throws. -/
def cancelReminderNotifications (env : Env) (s : NotifState) (reminderId : String) :
    NotifState :=
  let r := cancelList env s.live (getNotificationIds s.index reminderId)
  if r.2 then ⟨r.1, removeNotificationIds s.index reminderId⟩
  else ⟨r.1, s.index⟩

/-- The scheduling loop of `scheduleReminder` (lines 97-121): for each
day build the composite key and schedule a repeating trigger at the
converted weekday; scheduling with an identifier already present
replaces it; a throwing schedule call aborts the loop. Returns the live
triggers, the accumulated identifier list, and whether every call
succeeded. -/
def schedLoop (env : Env) (reminderId : String) (hour minute : Nat) :
    List Trigger → List Nat → List String → List Trigger × List String × Bool
  | live, [], acc => (live, acc, true)
  | live, d :: rest, acc =>
    if env.schedFail (compositeKey reminderId d) then (live, acc, false)
    else
      schedLoop env reminderId hour minute
        (⟨compositeKey reminderId d, expoWeekday d, hour, minute⟩ ::
          live.filter (fun t => t.key ≠ compositeKey reminderId d))
        rest (acc ++ [compositeKey reminderId d])

/-- Model of `scheduleReminder` (lines 71-131): cancel the reminder's
existing notifications, schedule one trigger per day, then store the
collected identifiers. A schedule failure is rethrown (second component
`false`) after the earlier schedules of the same call already took
effect; the identifier list is then never stored. A save failure is
swallowed inside `saveNotificationIds`, so the call still returns
normally (second component `true`). The hour and minute are taken as
parsed, with no range check, and no validation of `days` is
performed. -/
def scheduleReminder (env : Env) (s : NotifState) (reminderId : String)
    (hour minute : Nat) (days : List Nat) : NotifState × Bool :=
  let s1 := cancelReminderNotifications env s reminderId
  let r := schedLoop env reminderId hour minute s1.live days []
  if r.2.2 then
    (⟨r.1, saveNotificationIds env s1.index reminderId r.2.1⟩, true)
  else
    (⟨r.1, s1.index⟩, false)

/-- Model of `updateReminderNotifications` (lines 160-168): cancel, then
schedule (which itself cancels again first). -/
def updateReminderNotifications (env : Env) (s : NotifState) (reminderId : String)
    (hour minute : Nat) (days : List Nat) : NotifState × Bool :=
  scheduleReminder env (cancelReminderNotifications env s reminderId)
    reminderId hour minute days

/-- Environment in which every host call succeeds. -/
def env0 : Env := ⟨fun _ => false, fun _ => false, false⟩

theorem getIds_nil (rid : String) : getNotificationIds [] rid = [] := rfl

theorem getIds_cons (p : String × List String) (rest : List (String × List String))
    (rid : String) :
    getNotificationIds (p :: rest) rid =
      if p.1 = rid then p.2 else getNotificationIds rest rid := by
  by_cases h : p.1 = rid <;> simp [getNotificationIds, List.find?, h]

theorem remove_cons (p : String × List String) (rest : List (String × List String))
    (rid : String) :
    removeNotificationIds (p :: rest) rid =
      if p.1 = rid then removeNotificationIds rest rid
      else p :: removeNotificationIds rest rid := by
  by_cases h : p.1 = rid <;> simp [removeNotificationIds, h]

theorem getIds_remove_self (idx : List (String × List String)) (rid : String) :
    getNotificationIds (removeNotificationIds idx rid) rid = [] := by
  induction idx with
  | nil => rfl
  | cons p rest ih =>
    rw [remove_cons]
    by_cases hp : p.1 = rid
    · rw [if_pos hp]; exact ih
    · rw [if_neg hp, getIds_cons, if_neg hp]; exact ih

theorem getIds_remove_ne (idx : List (String × List String)) (rid other : String)
    (h : rid ≠ other) :
    getNotificationIds (removeNotificationIds idx rid) other =
      getNotificationIds idx other := by
  induction idx with
  | nil => rfl
  | cons p rest ih =>
    rw [remove_cons]
    by_cases hp : p.1 = rid
    · have hpo : ¬ p.1 = other := fun hpo => h (hp ▸ hpo)
      rw [if_pos hp, ih, getIds_cons, if_neg hpo]
    · rw [if_neg hp, getIds_cons, getIds_cons, ih]

theorem getIds_setEntry_self (idx : List (String × List String)) (rid : String)
    (ids : List String) :
    getNotificationIds (setEntry idx rid ids) rid = ids := by
  induction idx with
  | nil => rw [setEntry, getIds_cons]; simp
  | cons p rest ih =>
    rw [setEntry]
    by_cases hp : p.1 = rid
    · rw [if_pos hp, getIds_cons]; simp
    · rw [if_neg hp, getIds_cons, if_neg hp]; exact ih

theorem getIds_setEntry_ne (idx : List (String × List String)) (rid other : String)
    (ids : List String) (h : rid ≠ other) :
    getNotificationIds (setEntry idx rid ids) other =
      getNotificationIds idx other := by
  induction idx with
  | nil => rw [setEntry, getIds_cons]; simp [h]
  | cons p rest ih =>
    rw [setEntry]
    by_cases hp : p.1 = rid
    · have hpo : ¬ p.1 = other := fun hpo => h (hp ▸ hpo)
      rw [if_pos hp, getIds_cons, getIds_cons, if_neg hpo]
      simp [h]
    · rw [if_neg hp, getIds_cons, getIds_cons, ih]

theorem remove_of_absent (idx : List (String × List String)) (rid : String)
    (h : ∀ p ∈ idx, ¬ p.1 = rid) :
    removeNotificationIds idx rid = idx := by
  apply List.filter_eq_self.mpr
  intro p hp
  simpa using h p hp

theorem cancelList_subset (env : Env) (live : List Trigger) (ids : List String) :
    ∀ t ∈ (cancelList env live ids).1, t ∈ live := by
  induction ids generalizing live with
  | nil => intro t ht; simpa [cancelList] using ht
  | cons k rest ih =>
    intro t ht
    by_cases h : env.cancelFail k
    · simpa [cancelList, h] using ht
    · rw [cancelList, if_neg (by simp [h])] at ht
      exact List.mem_filter.mp (ih _ t ht) |>.1

theorem cancelList_success_snd (env : Env) (live : List Trigger) (ids : List String)
    (hc : ∀ k ∈ ids, env.cancelFail k = false) :
    (cancelList env live ids).2 = true := by
  induction ids generalizing live with
  | nil => rfl
  | cons k rest ih =>
    rw [cancelList, if_neg (by simp [hc k (by simp)])]
    exact ih _ (fun k hk => hc k (by simp [hk]))

theorem cancelList_success_key (env : Env) (live : List Trigger) (ids : List String)
    (hc : ∀ k ∈ ids, env.cancelFail k = false) :
    ∀ t ∈ (cancelList env live ids).1, t.key ∉ ids := by
  induction ids generalizing live with
  | nil => simp
  | cons k rest ih =>
    intro t ht
    rw [cancelList, if_neg (by simp [hc k (by simp)])] at ht
    have hrest := ih _ (fun k hk => hc k (by simp [hk])) t ht
    have hmem := cancelList_subset env _ rest t ht
    have hk : t.key ≠ k := by
      have := List.mem_filter.mp hmem |>.2
      simpa using this
    simp [hk, hrest]

theorem cancelList_idem (env : Env) (live : List Trigger) (ids : List String) :
    cancelList env (cancelList env live ids).1 ids = cancelList env live ids := by
  induction ids generalizing live with
  | nil => rfl
  | cons k rest ih =>
    by_cases h : env.cancelFail k
    · simp [cancelList, h]
    · rw [cancelList, if_neg (by simp [h]), cancelList, if_neg (by simp [h])]
      have hfix : (cancelList env (live.filter (fun t => t.key ≠ k)) rest).1.filter
          (fun t => t.key ≠ k) =
          (cancelList env (live.filter (fun t => t.key ≠ k)) rest).1 := by
        apply List.filter_eq_self.mpr
        intro t ht
        have := cancelList_subset env _ rest t ht
        exact List.mem_filter.mp this |>.2
      rw [hfix]
      exact ih _

theorem string_append_cancel_left (x s t : String) (h : x ++ s = x ++ t) : s = t := by
  apply String.ext
  have h2 : x.data ++ s.data = x.data ++ t.data := by
    rw [← String.data_append, ← String.data_append, h]
  exact List.append_cancel_left h2

theorem toString_inj7 : ∀ a b : Fin 7, toString a.val = toString b.val → a = b := by
  decide

theorem compositeKey_inj (reminderId : String) {d1 d2 : Nat} (h1 : d1 < 7)
    (h2 : d2 < 7) (h : compositeKey reminderId d1 = compositeKey reminderId d2) :
    d1 = d2 := by
  have hs : toString d1 = toString d2 :=
    string_append_cancel_left ("reminder_" ++ reminderId ++ "_day") _ _ h
  have hf := toString_inj7 ⟨d1, h1⟩ ⟨d2, h2⟩ hs
  simpa using congrArg Fin.val hf

theorem schedLoop_success (env : Env) (reminderId : String) (hour minute : Nat)
    (live : List Trigger) (days : List Nat) (acc : List String)
    (hs : ∀ d ∈ days, env.schedFail (compositeKey reminderId d) = false) :
    (schedLoop env reminderId hour minute live days acc).2.2 = true ∧
    (schedLoop env reminderId hour minute live days acc).2.1 =
      acc ++ days.map (compositeKey reminderId) := by
  induction days generalizing live acc with
  | nil => simp [schedLoop]
  | cons d rest ih =>
    have hd : env.schedFail (compositeKey reminderId d) = false := hs d (by simp)
    rw [schedLoop, if_neg (by simp [hd])]
    have hrest : ∀ x ∈ rest, env.schedFail (compositeKey reminderId x) = false :=
      fun x hx => hs x (by simp [hx])
    have := ih (⟨compositeKey reminderId d, expoWeekday d, hour, minute⟩ ::
        live.filter (fun t => t.key ≠ compositeKey reminderId d))
      (acc ++ [compositeKey reminderId d]) hrest
    simpa [List.append_assoc] using this

theorem schedLoop_preserve (env : Env) (reminderId : String) (hour minute : Nat)
    (live : List Trigger) (days : List Nat) (acc : List String) (t : Trigger)
    (ht : t ∈ live) (hk : ∀ d ∈ days, t.key ≠ compositeKey reminderId d) :
    t ∈ (schedLoop env reminderId hour minute live days acc).1 := by
  induction days generalizing live acc with
  | nil => simpa [schedLoop] using ht
  | cons d rest ih =>
    by_cases hf : env.schedFail (compositeKey reminderId d)
    · simpa [schedLoop, hf] using ht
    · rw [schedLoop, if_neg (by simp [hf])]
      apply ih
      · apply List.mem_cons_of_mem
        apply List.mem_filter.mpr
        exact ⟨ht, by simpa using hk d (by simp)⟩
      · exact fun x hx => hk x (by simp [hx])

theorem schedLoop_no_key (env : Env) (reminderId : String) (hour minute : Nat)
    (live : List Trigger) (days : List Nat) (acc : List String) (k : String)
    (hlive : ∀ t ∈ live, t.key ≠ k)
    (hnew : ∀ d ∈ days, compositeKey reminderId d ≠ k) :
    ∀ t ∈ (schedLoop env reminderId hour minute live days acc).1, t.key ≠ k := by
  induction days generalizing live acc with
  | nil => simpa [schedLoop] using hlive
  | cons d rest ih =>
    by_cases hf : env.schedFail (compositeKey reminderId d)
    · simpa [schedLoop, hf] using hlive
    · rw [schedLoop, if_neg (by simp [hf])]
      apply ih
      · intro t ht
        rcases List.mem_cons.mp ht with h | h
        · rw [h]; exact hnew d (by simp)
        · exact hlive t (List.mem_filter.mp h).1
      · exact fun x hx => hnew x (by simp [hx])

theorem schedLoop_mem (env : Env) (reminderId : String) (hour minute : Nat)
    (live : List Trigger) (days : List Nat) (acc : List String)
    (hs : ∀ d ∈ days, env.schedFail (compositeKey reminderId d) = false)
    (hnd : days.Nodup) (hb : ∀ d ∈ days, d < 7) :
    ∀ e ∈ days,
      (⟨compositeKey reminderId e, expoWeekday e, hour, minute⟩ : Trigger) ∈
        (schedLoop env reminderId hour minute live days acc).1 := by
  induction days generalizing live acc with
  | nil => simp
  | cons d rest ih =>
    intro e he
    have hd : env.schedFail (compositeKey reminderId d) = false := hs d (by simp)
    rw [schedLoop, if_neg (by simp [hd])]
    have hnotmem : d ∉ rest := (List.nodup_cons.mp hnd).1
    rcases List.mem_cons.mp he with h | h
    · subst h
      apply schedLoop_preserve
      · exact List.mem_cons_self _ _
      · intro d2 hd2 hkey
        have : e = d2 :=
          compositeKey_inj reminderId (hb e (by simp)) (hb d2 (by simp [hd2])) hkey
        exact hnotmem (this ▸ hd2)
    · exact ih _ _ (fun x hx => hs x (by simp [hx])) (List.nodup_cons.mp hnd).2
        (fun x hx => hb x (by simp [hx])) e h

/-- C4: the weekday conversion maps caller day 6 to runtime day 1,
0 to 2 and 5 to 7, and is injective on caller days 0…6. -/
theorem weekday_mapping_correct :
    expoWeekday 6 = 1 ∧ expoWeekday 0 = 2 ∧ expoWeekday 5 = 7 ∧
    ∀ a b : Nat, a < 7 → b < 7 → expoWeekday a = expoWeekday b → a = b := by
  refine ⟨rfl, rfl, rfl, ?_⟩
  intro a b ha hb h
  interval_cases a <;> interval_cases b <;> simp_all [expoWeekday]

/-- Witness for C4: the injectivity hypotheses are satisfiable at
concrete caller days. -/
theorem weekday_mapping_correct_witness : (5 : Nat) = 5 :=
  weekday_mapping_correct.2.2.2 5 5 (by decide) (by decide) rfl

theorem remove_idem (idx : List (String × List String)) (rid : String) :
    removeNotificationIds (removeNotificationIds idx rid) rid =
      removeNotificationIds idx rid := by
  apply remove_of_absent
  intro p hp
  simpa using (List.mem_filter.mp hp).2

/-- C9: frame property of the Handle Index: writing the entry for one
reminderId via saveNotificationIds, or removing it via
removeNotificationIds, leaves what getNotificationIds returns for any
other reminderId unchanged. -/
theorem index_frame_property (env : Env) (idx : List (String × List String))
    (x y : String) (ids : List String) (h : x ≠ y) :
    getNotificationIds (saveNotificationIds env idx x ids) y =
      getNotificationIds idx y ∧
    getNotificationIds (removeNotificationIds idx x) y =
      getNotificationIds idx y := by
  constructor
  · by_cases hf : env.saveFail
    · simp [saveNotificationIds, hf]
    · rw [saveNotificationIds, if_neg (by simp [hf])]
      exact getIds_setEntry_ne idx x y ids h
  · exact getIds_remove_ne idx x y h

/-- Witness for C9 at concrete distinct reminderIds. -/
theorem index_frame_property_witness :
    getNotificationIds (saveNotificationIds env0 [("y", ["k"])] "x" ["a"]) "y" =
        getNotificationIds [("y", ["k"])] "y" ∧
    getNotificationIds (removeNotificationIds [("y", ["k"])] "x") "y" =
        getNotificationIds [("y", ["k"])] "y" :=
  index_frame_property env0 [("y", ["k"])] "x" "y" ["a"] (by decide)

/-- C10: getNotificationIds is total at the public interface: when the
index holds no entry for a reminderId (in particular when nothing is
stored at all), it returns the empty list, and cancelling that unknown
reminderId completes leaving the whole state unchanged — zero triggers
cancelled. -/
theorem get_total_unknown_cancel_noop (env : Env) (s : NotifState) (rid : String)
    (h : ∀ p ∈ s.index, ¬ p.1 = rid) :
    getNotificationIds s.index rid = [] ∧
    cancelReminderNotifications env s rid = s := by
  have hfind : s.index.find? (fun p => p.1 = rid) = none := by
    apply List.find?_eq_none.mpr
    intro p hp
    simpa using h p hp
  have hget : getNotificationIds s.index rid = [] := by
    simp [getNotificationIds, hfind]
  refine ⟨hget, ?_⟩
  cases s with
  | mk live index =>
    simp only [cancelReminderNotifications, hget, cancelList]
    simp [remove_of_absent index rid h]

/-- Witness for C10: a stored index with entries only for other
reminderIds. -/
theorem get_total_unknown_cancel_noop_witness :
    getNotificationIds (NotifState.mk [] [("other", ["k"])]).index "r1" = [] ∧
    cancelReminderNotifications env0 (NotifState.mk [] [("other", ["k"])]) "r1" =
      NotifState.mk [] [("other", ["k"])] :=
  get_total_unknown_cancel_noop env0 (NotifState.mk [] [("other", ["k"])]) "r1"
    (by decide)

/-- C8: disabling twice in immediate succession produces exactly the
same end state as disabling once: cancelReminderNotifications is
idempotent on the whole state, in every failure environment (the model's
failure flags are functions of the identifier, so a repeated run repeats
the first run's behaviour). -/
theorem cancel_idempotent (env : Env) (s : NotifState) (rid : String) :
    cancelReminderNotifications env (cancelReminderNotifications env s rid) rid =
      cancelReminderNotifications env s rid := by
  by_cases hc : (cancelList env s.live (getNotificationIds s.index rid)).2
  · have h1 : cancelReminderNotifications env s rid =
        ⟨(cancelList env s.live (getNotificationIds s.index rid)).1,
          removeNotificationIds s.index rid⟩ := by
      simp [cancelReminderNotifications, hc]
    rw [h1]
    simp [cancelReminderNotifications, getIds_remove_self, cancelList,
      remove_idem]
  · have h1 : cancelReminderNotifications env s rid =
        ⟨(cancelList env s.live (getNotificationIds s.index rid)).1, s.index⟩ := by
      simp [cancelReminderNotifications, hc]
    rw [h1]
    simp [cancelReminderNotifications, cancelList_idem, hc]

theorem scheduleReminder_success_eq (env : Env) (s : NotifState) (rid : String)
    (hour minute : Nat) (days : List Nat)
    (hs : ∀ d ∈ days, env.schedFail (compositeKey rid d) = false) :
    scheduleReminder env s rid hour minute days =
      (⟨(schedLoop env rid hour minute
            (cancelReminderNotifications env s rid).live days []).1,
        saveNotificationIds env (cancelReminderNotifications env s rid).index rid
          (days.map (compositeKey rid))⟩, true) := by
  have h := schedLoop_success env rid hour minute
    (cancelReminderNotifications env s rid).live days [] hs
  simp [scheduleReminder, h.1, h.2]

/-- C2: coverage invariant: a completed create/update with every host
call succeeding records in the Handle Index exactly one composite key
per selected day (the list of keys reminder_<id>_day<d>, of size |days|
and without duplicates), and for each selected day a trigger with that
key is live in the runtime at the reminder's hour and minute, at the
converted weekday. -/
theorem create_coverage_invariant (env : Env) (s : NotifState) (rid : String)
    (hour minute : Nat) (days : List Nat)
    (hnd : days.Nodup) (hb : ∀ d ∈ days, d < 7)
    (hs : ∀ d ∈ days, env.schedFail (compositeKey rid d) = false)
    (hsave : env.saveFail = false) :
    (scheduleReminder env s rid hour minute days).2 = true ∧
    getNotificationIds (scheduleReminder env s rid hour minute days).1.index rid =
      days.map (compositeKey rid) ∧
    (getNotificationIds
        (scheduleReminder env s rid hour minute days).1.index rid).length =
      days.length ∧
    (getNotificationIds
        (scheduleReminder env s rid hour minute days).1.index rid).Nodup ∧
    ∀ d ∈ days,
      (⟨compositeKey rid d, expoWeekday d, hour, minute⟩ : Trigger) ∈
        (scheduleReminder env s rid hour minute days).1.live := by
  rw [scheduleReminder_success_eq env s rid hour minute days hs]
  have hentry : getNotificationIds
      (saveNotificationIds env (cancelReminderNotifications env s rid).index rid
        (days.map (compositeKey rid))) rid = days.map (compositeKey rid) := by
    rw [saveNotificationIds, if_neg (by simp [hsave])]
    exact getIds_setEntry_self _ _ _
  refine ⟨rfl, hentry, ?_, ?_, ?_⟩
  · rw [hentry]; simp
  · rw [hentry]
    exact List.Nodup.map_on
      (fun x hx y hy hxy => compositeKey_inj rid (hb x hx) (hb y hy) hxy) hnd
  · exact schedLoop_mem env rid hour minute _ days [] hs hnd hb

/-- Witness for C2: the specification's own scenario — reminder r1 at
09:00 on days Monday=0, Wednesday=2, Friday=4, every call
succeeding. -/
theorem create_coverage_invariant_witness :
    (scheduleReminder env0 (NotifState.mk [] []) "r1" 9 0 [0, 2, 4]).2 = true ∧
    getNotificationIds
        (scheduleReminder env0 (NotifState.mk [] []) "r1" 9 0 [0, 2, 4]).1.index
        "r1" = [0, 2, 4].map (compositeKey "r1") ∧
    (getNotificationIds
        (scheduleReminder env0 (NotifState.mk [] []) "r1" 9 0 [0, 2, 4]).1.index
        "r1").length = [0, 2, 4].length ∧
    (getNotificationIds
        (scheduleReminder env0 (NotifState.mk [] []) "r1" 9 0 [0, 2, 4]).1.index
        "r1").Nodup ∧
    ∀ d ∈ [0, 2, 4],
      (⟨compositeKey "r1" d, expoWeekday d, 9, 0⟩ : Trigger) ∈
        (scheduleReminder env0 (NotifState.mk [] []) "r1" 9 0 [0, 2, 4]).1.live :=
  create_coverage_invariant env0 (NotifState.mk [] []) "r1" 9 0 [0, 2, 4]
    (by decide) (by decide) (fun d _ => rfl) rfl

/-- Environment in which the schedule call for the composite key of day
2 of reminder r1 throws and every other call succeeds. -/
def envC1 : Env := ⟨fun k => k == "reminder_r1_day2", fun _ => false, false⟩

/-- Counterexample to C1 as stated: creating reminder r1 for days
0, 2, 4 from the empty state, with the schedule call failing on the
second day, leaves the trigger scheduled for the first day live after
the operation returns failure — the source performs no rollback. -/
theorem schedule_fail_leaves_live_trigger :
    (scheduleReminder envC1 (NotifState.mk [] []) "r1" 9 0 [0, 2, 4]).2 = false ∧
    (⟨"reminder_r1_day0", 2, 9, 0⟩ : Trigger) ∈
      (scheduleReminder envC1 (NotifState.mk [] []) "r1" 9 0 [0, 2, 4]).1.live := by
  decide

/-- C1 (amended): if the runtime's schedule call fails on a later day
after an earlier day was already scheduled in the same create of a
reminder with no stored entry, the operation as a whole reports failure
and the Handle Index holds no entry for that reminderId, but the
triggers scheduled earlier in the same operation remain live — there is
no rollback. -/
theorem schedule_fail_no_rollback (env : Env) (s : NotifState) (rid : String)
    (hour minute d0 d1 : Nat) (rest : List Nat)
    (hfresh : getNotificationIds s.index rid = [])
    (h0 : env.schedFail (compositeKey rid d0) = false)
    (h1 : env.schedFail (compositeKey rid d1) = true) :
    (scheduleReminder env s rid hour minute (d0 :: d1 :: rest)).2 = false ∧
    getNotificationIds
        (scheduleReminder env s rid hour minute (d0 :: d1 :: rest)).1.index rid =
      [] ∧
    (⟨compositeKey rid d0, expoWeekday d0, hour, minute⟩ : Trigger) ∈
      (scheduleReminder env s rid hour minute (d0 :: d1 :: rest)).1.live := by
  have hcan : cancelReminderNotifications env s rid =
      ⟨s.live, removeNotificationIds s.index rid⟩ := by
    simp [cancelReminderNotifications, hfresh, cancelList]
  have hsched : scheduleReminder env s rid hour minute (d0 :: d1 :: rest) =
      (⟨⟨compositeKey rid d0, expoWeekday d0, hour, minute⟩ ::
          s.live.filter (fun t => t.key ≠ compositeKey rid d0),
        removeNotificationIds s.index rid⟩, false) := by
    simp [scheduleReminder, hcan, schedLoop, h0, h1]
  rw [hsched]
  exact ⟨rfl, getIds_remove_self _ _, List.mem_cons_self _ _⟩

/-- Witness for C1 (amended) at the counterexample input. -/
theorem schedule_fail_no_rollback_witness :
    (scheduleReminder envC1 (NotifState.mk [] []) "r1" 9 0 (0 :: 2 :: [4])).2 =
      false ∧
    getNotificationIds
        (scheduleReminder envC1 (NotifState.mk [] []) "r1" 9 0
          (0 :: 2 :: [4])).1.index "r1" = [] ∧
    (⟨compositeKey "r1" 0, expoWeekday 0, 9, 0⟩ : Trigger) ∈
      (scheduleReminder envC1 (NotifState.mk [] []) "r1" 9 0
        (0 :: 2 :: [4])).1.live :=
  schedule_fail_no_rollback envC1 (NotifState.mk [] []) "r1" 9 0 0 2 [4] rfl
    (by decide) (by decide)

/-- Environment in which the cancel call for the composite key of day 2
of reminder r1 throws and every other call succeeds. -/
def envC3 : Env := ⟨fun _ => false, fun k => k == "reminder_r1_day2", false⟩

/-- State used against C3: reminder r1 has two recorded composite keys
whose triggers are live, plus one live drift trigger for r1 that the
Handle Index does not record. -/
def stateC3 : NotifState :=
  ⟨[⟨"reminder_r1_day0", 2, 9, 0⟩, ⟨"reminder_r1_day2", 4, 9, 0⟩,
      ⟨"reminder_r1_day5", 7, 9, 0⟩],
    [("r1", ["reminder_r1_day0", "reminder_r1_day2"])]⟩

/-- Counterexample to C3 as stated: when a cancel call fails, the
completed disable operation (whose catch swallows the error) leaves the
Handle Index entry for the reminderId in place and leaves live triggers
whose keys embed that reminderId — both the one whose cancel failed and
a drift trigger the index never recorded. -/
theorem cancel_fail_leaves_state :
    getNotificationIds (cancelReminderNotifications envC3 stateC3 "r1").index
        "r1" ≠ [] ∧
    (⟨"reminder_r1_day2", 4, 9, 0⟩ : Trigger) ∈
      (cancelReminderNotifications envC3 stateC3 "r1").live ∧
    (⟨"reminder_r1_day5", 7, 9, 0⟩ : Trigger) ∈
      (cancelReminderNotifications envC3 stateC3 "r1").live := by
  decide

/-- C3 (amended): after a disable/delete whose underlying cancel calls
all succeed, the Handle Index holds no entry for the reminderId and no
trigger whose key was recorded in that entry remains live. (When a
cancel call fails, the error is swallowed and the entry and remaining
triggers stay in place; live triggers the index never recorded are
never cancelled.) -/
theorem cancel_success_emptiness (env : Env) (s : NotifState) (rid : String)
    (hc : ∀ k ∈ getNotificationIds s.index rid, env.cancelFail k = false) :
    getNotificationIds (cancelReminderNotifications env s rid).index rid = [] ∧
    ∀ k ∈ getNotificationIds s.index rid,
      ∀ t ∈ (cancelReminderNotifications env s rid).live, t.key ≠ k := by
  have hsnd := cancelList_success_snd env s.live _ hc
  have h1 : cancelReminderNotifications env s rid =
      ⟨(cancelList env s.live (getNotificationIds s.index rid)).1,
        removeNotificationIds s.index rid⟩ := by
    simp [cancelReminderNotifications, hsnd]
  rw [h1]
  refine ⟨getIds_remove_self _ _, ?_⟩
  intro k hk t ht hkey
  exact cancelList_success_key env s.live _ hc t ht (hkey ▸ hk)

/-- Witness for C3 (amended): disabling r1 with all cancels succeeding
empties its entry and removes its recorded triggers. -/
theorem cancel_success_emptiness_witness :
    getNotificationIds
        (cancelReminderNotifications env0 stateC3 "r1").index "r1" = [] ∧
    ∀ k ∈ getNotificationIds stateC3.index "r1",
      ∀ t ∈ (cancelReminderNotifications env0 stateC3 "r1").live, t.key ≠ k :=
  cancel_success_emptiness env0 stateC3 "r1" (fun _ _ => rfl)

theorem cancel_success_eq (env : Env) (s : NotifState) (rid : String)
    (hc : ∀ k ∈ getNotificationIds s.index rid, env.cancelFail k = false) :
    cancelReminderNotifications env s rid =
      ⟨(cancelList env s.live (getNotificationIds s.index rid)).1,
        removeNotificationIds s.index rid⟩ := by
  simp [cancelReminderNotifications, cancelList_success_snd env s.live _ hc]

theorem cancel_of_fresh (env : Env) (x : NotifState) (rid : String)
    (hfresh : getNotificationIds x.index rid = []) :
    cancelReminderNotifications env x rid =
      ⟨x.live, removeNotificationIds x.index rid⟩ := by
  simp [cancelReminderNotifications, hfresh, cancelList]

/-- State used against C5: reminder r1 has one recorded composite key
for day 0 whose trigger is live. -/
def stateC5 : NotifState :=
  ⟨[⟨"reminder_r1_day0", 2, 9, 0⟩], [("r1", ["reminder_r1_day0"])]⟩

/-- Counterexample to C5 as stated: updating a reminder to a day set
that overlaps the old one (here day set {0} to day set {0}) completes,
yet the compositeKey previously recorded in the Handle Index is still
present in the runtime afterwards (it was cancelled and then
re-scheduled), contradicting the claim that every previously recorded
compositeKey is no longer present after the update. -/
theorem update_overlap_key_remains :
    "reminder_r1_day0" ∈ getNotificationIds stateC5.index "r1" ∧
    (updateReminderNotifications env0 stateC5 "r1" 9 0 [0]).2 = true ∧
    (⟨"reminder_r1_day0", 2, 9, 0⟩ : Trigger) ∈
      (updateReminderNotifications env0 stateC5 "r1" 9 0 [0]).1.live := by
  decide

/-- C5 (amended): a completed update with every host call succeeding
replaces the Handle Index entry with exactly the compositeKeys of the
new day set, and every compositeKey previously recorded for the
reminderId that is not among the new keys has been cancelled and is no
longer present in the runtime (keys for days kept by the update are
cancelled and then re-scheduled, so they remain present). -/
theorem update_replaces_entry (env : Env) (s : NotifState) (rid : String)
    (hour minute : Nat) (days : List Nat)
    (hc : ∀ k ∈ getNotificationIds s.index rid, env.cancelFail k = false)
    (hs : ∀ d ∈ days, env.schedFail (compositeKey rid d) = false)
    (hsave : env.saveFail = false) :
    (updateReminderNotifications env s rid hour minute days).2 = true ∧
    getNotificationIds
        (updateReminderNotifications env s rid hour minute days).1.index rid =
      days.map (compositeKey rid) ∧
    ∀ k ∈ getNotificationIds s.index rid, k ∉ days.map (compositeKey rid) →
      ∀ t ∈ (updateReminderNotifications env s rid hour minute days).1.live,
        t.key ≠ k := by
  have hs1 := cancel_success_eq env s rid hc
  have hfresh : getNotificationIds
      (cancelReminderNotifications env s rid).index rid = [] := by
    rw [hs1]
    exact getIds_remove_self _ _
  have hupd : updateReminderNotifications env s rid hour minute days =
      (⟨(schedLoop env rid hour minute
            (cancelReminderNotifications env
              (cancelReminderNotifications env s rid) rid).live days []).1,
        saveNotificationIds env
          (cancelReminderNotifications env
            (cancelReminderNotifications env s rid) rid).index rid
          (days.map (compositeKey rid))⟩, true) := by
    unfold updateReminderNotifications
    exact scheduleReminder_success_eq env _ rid hour minute days hs
  rw [hupd, cancel_of_fresh env _ rid hfresh]
  refine ⟨rfl, ?_, ?_⟩
  · rw [saveNotificationIds, if_neg (by simp [hsave])]
    exact getIds_setEntry_self _ _ _
  · intro k hk hknot t ht hkey
    have hlive : ∀ u ∈ (cancelReminderNotifications env s rid).live, u.key ≠ k := by
      rw [hs1]
      intro u hu hukey
      exact cancelList_success_key env s.live _ hc u hu (hukey ▸ hk)
    exact schedLoop_no_key env rid hour minute _ days [] k hlive
      (fun d hd hkd => hknot (hkd ▸ List.mem_map_of_mem (compositeKey rid) hd))
      t ht hkey

/-- State used as witness for C5 (amended): the specification's own
scenario — r1 scheduled on days 0, 2, 4 with the three matching
triggers live. -/
def stateC5b : NotifState :=
  ⟨[⟨"reminder_r1_day0", 2, 9, 0⟩, ⟨"reminder_r1_day2", 4, 9, 0⟩,
      ⟨"reminder_r1_day4", 6, 9, 0⟩],
    [("r1", ["reminder_r1_day0", "reminder_r1_day2", "reminder_r1_day4"])]⟩

/-- Witness for C5 (amended): updating r1 from days 0, 2, 4 to day 5
holds exactly the one new key and removes the three prior ones. -/
theorem update_replaces_entry_witness :
    (updateReminderNotifications env0 stateC5b "r1" 9 0 [5]).2 = true ∧
    getNotificationIds
        (updateReminderNotifications env0 stateC5b "r1" 9 0 [5]).1.index "r1" =
      [5].map (compositeKey "r1") ∧
    ∀ k ∈ getNotificationIds stateC5b.index "r1",
      k ∉ [5].map (compositeKey "r1") →
      ∀ t ∈ (updateReminderNotifications env0 stateC5b "r1" 9 0 [5]).1.live,
        t.key ≠ k :=
  update_replaces_entry env0 stateC5b "r1" 9 0 [5] (fun _ _ => rfl)
    (fun _ _ => rfl) rfl

/-- Counterexample to C6 as stated: with an hour of 25 (outside [0,23])
the scheduling operation still issues a runtime schedule call — a
trigger with hour 25 is live afterwards — and with an empty day set it
completes and writes an (empty) entry into the Handle Index; nothing is
rejected and side effects occur in both cases. -/
theorem no_validation_counterexample :
    (scheduleReminder env0 (NotifState.mk [] []) "r1" 25 0 [0]).2 = true ∧
    (⟨"reminder_r1_day0", 2, 25, 0⟩ : Trigger) ∈
      (scheduleReminder env0 (NotifState.mk [] []) "r1" 25 0 [0]).1.live ∧
    (scheduleReminder env0 (NotifState.mk [] []) "r1" 9 0 []).1.index =
      [("r1", [])] := by
  decide

/-- C6 (amended): malformed input is not rejected: the scheduling
operation performs no range check on the parsed hour and minute and no
emptiness check on the day set; given an out-of-range hour or an empty
day set it proceeds exactly as usual, issuing the runtime schedule calls
with the out-of-range values unchanged and recording the (possibly
empty) identifier list in the Handle Index. -/
theorem malformed_input_not_rejected (env : Env) (s : NotifState) (rid : String)
    (hour minute : Nat) (days : List Nat)
    (hmal : 24 ≤ hour ∨ days = [])
    (hs : ∀ d ∈ days, env.schedFail (compositeKey rid d) = false)
    (hsave : env.saveFail = false)
    (hnd : days.Nodup) (hb : ∀ d ∈ days, d < 7) :
    (scheduleReminder env s rid hour minute days).2 = true ∧
    getNotificationIds (scheduleReminder env s rid hour minute days).1.index rid =
      days.map (compositeKey rid) ∧
    ∀ d ∈ days,
      (⟨compositeKey rid d, expoWeekday d, hour, minute⟩ : Trigger) ∈
        (scheduleReminder env s rid hour minute days).1.live := by
  rw [scheduleReminder_success_eq env s rid hour minute days hs]
  refine ⟨rfl, ?_, ?_⟩
  · rw [saveNotificationIds, if_neg (by simp [hsave])]
    exact getIds_setEntry_self _ _ _
  · exact schedLoop_mem env rid hour minute _ days [] hs hnd hb

/-- Witness for C6 (amended): scheduling r1 at hour 25 on day 0. -/
theorem malformed_input_not_rejected_witness :
    (scheduleReminder env0 (NotifState.mk [] []) "r1" 25 0 [0]).2 = true ∧
    getNotificationIds
        (scheduleReminder env0 (NotifState.mk [] []) "r1" 25 0 [0]).1.index
        "r1" = [0].map (compositeKey "r1") ∧
    ∀ d ∈ [0],
      (⟨compositeKey "r1" d, expoWeekday d, 25, 0⟩ : Trigger) ∈
        (scheduleReminder env0 (NotifState.mk [] []) "r1" 25 0 [0]).1.live :=
  malformed_input_not_rejected env0 (NotifState.mk [] []) "r1" 25 0 [0]
    (Or.inl (by decide)) (fun _ _ => rfl) rfl (by decide) (by decide)

/-- Environment in which the Handle Index persistence write inside
saveNotificationIds throws and every runtime call succeeds. -/
def envC7 : Env := ⟨fun _ => false, fun _ => false, true⟩

/-- Counterexample to C7 as stated: when every schedule call succeeds
and the subsequent Handle Index write fails, the operation returns plain
success (its promise resolves normally, indistinguishable from full
success — no degraded-state warning reaches the caller), while the
trigger is live and the index holds no entry. -/
theorem save_fail_plain_success :
    (scheduleReminder envC7 (NotifState.mk [] []) "r1" 9 0 [0]).2 = true ∧
    (⟨"reminder_r1_day0", 2, 9, 0⟩ : Trigger) ∈
      (scheduleReminder envC7 (NotifState.mk [] []) "r1" 9 0 [0]).1.live ∧
    getNotificationIds
        (scheduleReminder envC7 (NotifState.mk [] []) "r1" 9 0 [0]).1.index
        "r1" = [] := by
  decide

/-- C7 (amended): when all schedule calls succeed and the Handle Index
persistence write then fails, the failure IS silently swallowed inside
saveNotificationIds: the operation returns plain success to its caller
with no warning; it does not cancel the already-live triggers to
compensate (they all remain scheduled), and the Handle Index is left
with no entry for the reminderId. -/
theorem save_fail_swallowed (env : Env) (s : NotifState) (rid : String)
    (hour minute : Nat) (days : List Nat)
    (hsave : env.saveFail = true)
    (hc : ∀ k ∈ getNotificationIds s.index rid, env.cancelFail k = false)
    (hs : ∀ d ∈ days, env.schedFail (compositeKey rid d) = false)
    (hnd : days.Nodup) (hb : ∀ d ∈ days, d < 7) :
    (scheduleReminder env s rid hour minute days).2 = true ∧
    (∀ d ∈ days,
      (⟨compositeKey rid d, expoWeekday d, hour, minute⟩ : Trigger) ∈
        (scheduleReminder env s rid hour minute days).1.live) ∧
    getNotificationIds (scheduleReminder env s rid hour minute days).1.index rid =
      [] := by
  rw [scheduleReminder_success_eq env s rid hour minute days hs]
  refine ⟨rfl, ?_, ?_⟩
  · exact schedLoop_mem env rid hour minute _ days [] hs hnd hb
  · rw [saveNotificationIds, if_pos (by simp [hsave]), cancel_success_eq env s rid hc]
    exact getIds_remove_self _ _

/-- Witness for C7 (amended): scheduling r1 on days 0 and 2 with the
persistence write failing. -/
theorem save_fail_swallowed_witness :
    (scheduleReminder envC7 (NotifState.mk [] []) "r1" 9 0 [0, 2]).2 = true ∧
    (∀ d ∈ [0, 2],
      (⟨compositeKey "r1" d, expoWeekday d, 9, 0⟩ : Trigger) ∈
        (scheduleReminder envC7 (NotifState.mk [] []) "r1" 9 0 [0, 2]).1.live) ∧
    getNotificationIds
        (scheduleReminder envC7 (NotifState.mk [] []) "r1" 9 0 [0, 2]).1.index
        "r1" = [] :=
  save_fail_swallowed envC7 (NotifState.mk [] []) "r1" 9 0 [0, 2] rfl
    (fun _ _ => rfl) (fun _ _ => rfl) (by decide) (by decide)
